import Mathlib

/-!
Verification of the LoadLoad reverse-proxy load balancer
(`src/loadbalancer.py`).

The Python class `LoadLoad` holds three pieces of mutable state: the
backend pool `servers` (a list of `Server` records, each with a mutable
`is_healthy` flag), the shared round-robin counter `current_index`, and
the sticky-session dictionary `sticky_sessions` mapping a session
identifier to a `Server`.

Modelling choices:
* Python stores object *references* to pool members in `sticky_sessions`;
  since the pool is fixed and owns the `Server` objects, a reference is
  modelled as the index of the server in the pool list.
* The Python dict is modelled as an association list with
  first-match lookup; `del d[k]` is `eraseSession`, `d[k] = v` is
  `insertSession`.
* Network effects (health-probe responses, proxied backend responses)
  are passed in as explicit outcome parameters; an exception raised by
  the HTTP client is the `none` / `failure` outcome.
-/

/-- Python `Server` dataclass: host, port and the mutable health flag
(default `True`). -/
structure Server where
  host : String
  port : Nat
  is_healthy : Bool := true
deriving Repr, DecidableEq

/-- `Server.url`: `f"http://{self.host}:{self.port}"`. -/
def Server.url (s : Server) : String :=
  "http://" ++ s.host ++ ":" ++ toString s.port

/-- The mutable state of the Python `LoadLoad` object: the pool,
the shared round-robin cursor, and the sticky-session dictionary
(session id ↦ pool index of the referenced `Server`). -/
structure LoadLoad where
  servers : List Server
  current_index : Nat
  sticky_sessions : List (String × Nat)
deriving Repr, DecidableEq

/-- `LoadLoad.__init__(servers)`: cursor 0, empty sticky table. -/
def LoadLoad.init (servers : List Server) : LoadLoad :=
  { servers := servers, current_index := 0, sticky_sessions := [] }

/-- Dict lookup `d.get(k)` / `d[k]` on the association list
(first match wins). -/
def lookupSession : List (String × Nat) → String → Option Nat
  | [], _ => none
  | (k, v) :: rest, sid => if k = sid then some v else lookupSession rest sid

/-- Dict deletion `del d[k]`. -/
def eraseSession (t : List (String × Nat)) (sid : String) : List (String × Nat) :=
  t.filter (fun p => p.1 != sid)

/-- Dict update `d[k] = v`. -/
def insertSession (t : List (String × Nat)) (sid : String) (i : Nat) :
    List (String × Nat) :=
  (sid, i) :: eraseSession t sid

/-- Health of the pool entry at index `i` (a dangling index counts as
unhealthy; the table-membership invariant rules that case out). -/
def isHealthyAt (servers : List Server) (i : Nat) : Bool :=
  ((servers.get? i).map Server.is_healthy).getD false

/-- The list comprehension `[s for s in self.servers if s.is_healthy]`,
with each healthy server represented by its pool index. -/
def healthyIndices (servers : List Server) : List Nat :=
  (List.range servers.length).filter (fun i => isHealthyAt servers i)

/-- `LoadLoad._round_robin`: filter to the healthy servers; if none,
return `None` (state untouched); otherwise pick
`healthy_servers[self.current_index % len(healthy_servers)]` and
increment `self.current_index` by one. -/
def LoadLoad.round_robin (lb : LoadLoad) : Option Nat × LoadLoad :=
  let healthy := healthyIndices lb.servers
  if healthy.length = 0 then
    (none, lb)
  else
    (healthy.get? (lb.current_index % healthy.length),
     { lb with current_index := lb.current_index + 1 })

/-- The fall-through tail of `LoadLoad._get_server`: call
`_round_robin`; if it yields a server, record
`self.sticky_sessions[session_id] = server` before returning it. -/
def LoadLoad.assignServer (lb : LoadLoad) (session_id : String) :
    Option Nat × LoadLoad :=
  let rr := lb.round_robin
  match rr.1 with
  | some i =>
      (some i,
       { rr.2 with sticky_sessions := insertSession rr.2.sticky_sessions session_id i })
  | none => (none, rr.2)

/-- `LoadLoad._get_server(session_id)`: if the session has a recorded
server that is still healthy, return it unchanged; if recorded but
unhealthy, delete the stale entry and fall through; if absent, fall
through. The fall-through assigns via round robin. -/
def LoadLoad.get_server (lb : LoadLoad) (session_id : String) :
    Option Nat × LoadLoad :=
  match lookupSession lb.sticky_sessions session_id with
  | some i =>
      if isHealthyAt lb.servers i then
        (some i, lb)
      else
        LoadLoad.assignServer
          { lb with sticky_sessions := eraseSession lb.sticky_sessions session_id }
          session_id
  | none => LoadLoad.assignServer lb session_id

/-- Outcome of one health-probe HTTP call: either a response with some
status code arrived within the timeout, or the call failed (timeout,
connection error — any raised exception). -/
inductive ProbeOutcome where
  | response (status : Nat)
  | failure
deriving Repr, DecidableEq

/-- The new value of the health flag computed by `_check_health`:
`server.is_healthy = (response.status == 200)` on a response,
`False` in the `except` branch. -/
def healthOf : ProbeOutcome → Bool
  | .response s => s == 200
  | .failure => false

/-- In-place update of the flag of pool entry `i` (an out-of-range
index leaves the pool unchanged; Python references cannot dangle). -/
def setHealth (servers : List Server) (i : Nat) (b : Bool) : List Server :=
  match servers.get? i with
  | some s => servers.set i { s with is_healthy := b }
  | none => servers

/-- `LoadLoad._check_health(server)` for the pool entry at index `i`,
given the probe outcome: sets that server's `is_healthy` and nothing
else; the `try/except` swallows every exception. -/
def LoadLoad.check_health (lb : LoadLoad) (i : Nat) (outcome : ProbeOutcome) :
    LoadLoad :=
  { lb with servers := setHealth lb.servers i (healthOf outcome) }

/-- The slice of an inbound `web.Request` that `LoadLoad` reads:
method, `path_qs`, headers, optional body, the `session_id` cookie
(`None` when absent) and `request.remote` (`None` when unavailable). -/
structure Request where
  method : String
  path_qs : String
  headers : List (String × String)
  body : Option String
  cookie_session_id : Option String
  remote : Option String
deriving Repr, DecidableEq

/-- Python truthiness of an `Optional[str]`: `None` and `""` are falsy. -/
def optStrTruthy : Option String → Bool
  | none => false
  | some s => s != ""

/-- `LoadLoad._get_session_id(request)`: the `session_id` cookie if
truthy, else `request.remote`. -/
def LoadLoad.get_session_id (req : Request) : Option String :=
  if optStrTruthy req.cookie_session_id then req.cookie_session_id else req.remote

/-- The outbound request built by `handle_request` for the proxied call:
same method, the backend's base URL followed by the inbound
path-and-query, the inbound headers minus any `Host` header
(case-insensitive key comparison), and the inbound body. -/
structure OutboundRequest where
  method : String
  url : String
  headers : List (String × String)
  body : Option String
deriving Repr, DecidableEq

/-- Python `str.lower()`, character by character (header names are
ASCII, where `Char.toLower` and Python agree). -/
def strLower (s : String) : String :=
  String.mk (s.data.map Char.toLower)

/-- `{k: v for k, v in request.headers.items() if k.lower() != 'host'}`. -/
def stripHostHeaders (headers : List (String × String)) : List (String × String) :=
  headers.filter (fun p => strLower p.1 != "host")

/-- Construction of the outbound proxied request from `handle_request`
(lines 92–96 of the source). -/
def buildOutbound (server : Server) (req : Request) : OutboundRequest :=
  { method := req.method
    url := server.url ++ req.path_qs
    headers := stripHostHeaders req.headers
    body := req.body }

/-- What the proxied call hands back on success: the backend's status,
headers and body. -/
structure BackendResponse where
  status : Nat
  headers : List (String × String)
  body : String
deriving Repr, DecidableEq

/-- The `web.Response` returned to the caller, as (status, headers,
body text). -/
structure HttpResponse where
  status : Nat
  headers : List (String × String)
  body : String
deriving Repr, DecidableEq

/-- Outcome of the outbound proxied call: `some resp` when the backend
answered, `none` when the call raised (timeout, connection error,
malformed response). -/
def CallOutcome : Type := Option BackendResponse

/-- The selection step of `handle_request` (lines 81–86 of the
source): `_get_server(session_id)` when the derived session id is
truthy, plain `_round_robin()` otherwise. -/
def LoadLoad.selectFor (lb : LoadLoad) (req : Request) : Option Nat × LoadLoad :=
  match LoadLoad.get_session_id req with
  | some s => if s = "" then lb.round_robin else lb.get_server s
  | none => lb.round_robin

/-- `LoadLoad.handle_request(request)`, with the network outcome of the
proxied call supplied as `callResult`. Returns the response to the
caller, the post-state, and `some` outbound request iff a proxied call
was issued. Steps, exactly as in the source: derive the session id;
route via `_get_server` when it is truthy, else via `_round_robin`;
503 "No servers available" when no server; otherwise forward and relay
the backend's status/headers/body, or 502 "Backend error" in the
`except` branch. -/
def LoadLoad.handle_request (lb : LoadLoad) (req : Request)
    (callResult : Option BackendResponse) :
    HttpResponse × LoadLoad × Option OutboundRequest :=
  let sel := lb.selectFor req
  match sel.1 with
  | none =>
      ({ status := 503, headers := [], body := "No servers available" }, sel.2, none)
  | some i =>
      let server := (sel.2.servers.get? i).getD { host := "", port := 0 }
      let out := buildOutbound server req
      match callResult with
      | some resp =>
          ({ status := resp.status, headers := resp.headers, body := resp.body },
           sel.2, some out)
      | none =>
          ({ status := 502, headers := [], body := "Backend error" }, sel.2, some out)

/-- `n` consecutive calls to `_round_robin` on the shared state,
collecting the selections in order. -/
def LoadLoad.rrRun : LoadLoad → Nat → List (Option Nat) × LoadLoad
  | lb, 0 => ([], lb)
  | lb, n + 1 =>
      let step := lb.round_robin
      let rest := step.2.rrRun n
      (step.1 :: rest.1, rest.2)

/-! ### Basic lemmas about the embedded operations -/

theorem healthyIndices_mem {servers : List Server} {i : Nat} :
    i ∈ healthyIndices servers ↔ i < servers.length ∧ isHealthyAt servers i = true := by
  simp [healthyIndices, List.mem_filter, List.mem_range]

theorem round_robin_of_ne_nil {lb : LoadLoad}
    (h : healthyIndices lb.servers ≠ []) :
    lb.round_robin =
      ((healthyIndices lb.servers).get?
          (lb.current_index % (healthyIndices lb.servers).length),
       { lb with current_index := lb.current_index + 1 }) := by
  unfold LoadLoad.round_robin
  simp [List.length_eq_zero.not.mpr h]

theorem round_robin_of_nil {lb : LoadLoad}
    (h : healthyIndices lb.servers = []) :
    lb.round_robin = (none, lb) := by
  unfold LoadLoad.round_robin
  simp [h]

theorem round_robin_servers (lb : LoadLoad) :
    (lb.round_robin).2.servers = lb.servers := by
  unfold LoadLoad.round_robin
  by_cases h : (healthyIndices lb.servers).length = 0 <;> simp [h]

theorem round_robin_sticky (lb : LoadLoad) :
    (lb.round_robin).2.sticky_sessions = lb.sticky_sessions := by
  unfold LoadLoad.round_robin
  by_cases h : (healthyIndices lb.servers).length = 0 <;> simp [h]

theorem round_robin_fst_some {lb : LoadLoad} {j : Nat}
    (h : (lb.round_robin).1 = some j) : j ∈ healthyIndices lb.servers := by
  unfold LoadLoad.round_robin at h
  by_cases hnil : healthyIndices lb.servers = []
  · simp [hnil] at h
  · rw [if_neg (by simpa using List.length_eq_zero.not.mpr hnil)] at h
    exact List.get?_mem h

theorem round_robin_isSome {lb : LoadLoad}
    (h : healthyIndices lb.servers ≠ []) : (lb.round_robin).1.isSome := by
  rw [round_robin_of_ne_nil h]
  have hlt : lb.current_index % (healthyIndices lb.servers).length <
      (healthyIndices lb.servers).length :=
    Nat.mod_lt _ (List.length_pos.mpr h)
  rw [List.get?_eq_get hlt]
  rfl

theorem lookupSession_erase (t : List (String × Nat)) (sid : String) :
    lookupSession (eraseSession t sid) sid = none := by
  induction t with
  | nil => rfl
  | cons p rest ih =>
      by_cases hp : p.1 = sid
      · simpa [eraseSession, List.filter_cons, hp] using ih
      · simpa [eraseSession, List.filter_cons, hp, lookupSession] using ih

theorem lookupSession_insert (t : List (String × Nat)) (sid : String) (i : Nat) :
    lookupSession (insertSession t sid i) sid = some i := by
  simp [insertSession, lookupSession]

theorem healthyIndices_eq_nil {servers : List Server}
    (h : ∀ s ∈ servers, s.is_healthy = false) : healthyIndices servers = [] := by
  unfold healthyIndices
  rw [List.filter_eq_nil_iff]
  intro i _
  unfold isHealthyAt
  cases hg : servers.get? i with
  | none => simp
  | some s => simp [h s (List.get?_mem hg)]

theorem lt_length_of_isHealthyAt {servers : List Server} {i : Nat}
    (h : isHealthyAt servers i = true) : i < servers.length := by
  unfold isHealthyAt at h
  cases hg : servers.get? i with
  | none => rw [hg] at h; simp at h
  | some s =>
      by_contra hlt
      rw [List.get?_eq_none.mpr (Nat.le_of_not_lt hlt)] at hg
      cases hg

theorem assignServer_of_nil (lb : LoadLoad) (sid : String)
    (h : healthyIndices lb.servers = []) :
    lb.assignServer sid = (none, lb) := by
  simp [LoadLoad.assignServer, round_robin_of_nil h]

/-! ### C2: affinity stability -/

/-- C2. Affinity stability: a session with a recorded and currently
healthy backend gets exactly that backend back, with the whole state —
round-robin cursor and affinity table included — unchanged. -/
theorem affinity_stability (lb : LoadLoad) (sid : String) (i : Nat)
    (hrec : lookupSession lb.sticky_sessions sid = some i)
    (hh : isHealthyAt lb.servers i = true) :
    lb.get_server sid = (some i, lb) := by
  unfold LoadLoad.get_server
  rw [hrec]
  simp [hh]

/-- Fixture: two-server pool, first healthy, second unhealthy,
session "abc" pinned to server 0. -/
def lbFix : LoadLoad :=
  { servers := [{ host := "h1", port := 8001 },
                { host := "h2", port := 8002, is_healthy := false }],
    current_index := 5,
    sticky_sessions := [("abc", 0)] }

theorem affinity_stability_witness :
    lookupSession lbFix.sticky_sessions "abc" = some 0
    ∧ isHealthyAt lbFix.servers 0 = true
    ∧ lbFix.get_server "abc" = (some 0, lbFix) :=
  ⟨by decide, by decide, affinity_stability lbFix "abc" 0 (by decide) (by decide)⟩

/-! ### C3: affinity invalidation -/

theorem assignServer_of_ne_nil (lb : LoadLoad) (sid : String)
    (h : healthyIndices lb.servers ≠ []) :
    ∃ j, j ∈ healthyIndices lb.servers
      ∧ lb.assignServer sid
          = (some j,
             { lb with current_index := lb.current_index + 1,
                       sticky_sessions := insertSession lb.sticky_sessions sid j }) := by
  have hrr := round_robin_of_ne_nil h
  have hlt : lb.current_index % (healthyIndices lb.servers).length <
      (healthyIndices lb.servers).length :=
    Nat.mod_lt _ (List.length_pos.mpr h)
  obtain ⟨j, hj⟩ : ∃ j, (healthyIndices lb.servers).get?
      (lb.current_index % (healthyIndices lb.servers).length) = some j :=
    ⟨_, List.get?_eq_get hlt⟩
  refine ⟨j, List.get?_mem hj, ?_⟩
  have hj' : (healthyIndices lb.servers)[lb.current_index %
      (healthyIndices lb.servers).length]? = some j := by
    simpa using hj
  unfold LoadLoad.assignServer
  rw [hrr]
  simp [hj']

/-- C3. Affinity invalidation: a session whose recorded backend is now
unhealthy has the stale entry removed; when a healthy backend exists,
a different (healthy) backend is selected, recorded for the session
and returned; when none exists, the lookup yields nothing and the
stale mapping stays discarded. -/
theorem affinity_invalidation (lb : LoadLoad) (sid : String) (i : Nat)
    (hrec : lookupSession lb.sticky_sessions sid = some i)
    (hunh : isHealthyAt lb.servers i = false) :
    (healthyIndices lb.servers ≠ [] →
       ∃ j, (lb.get_server sid).1 = some j
         ∧ j ≠ i
         ∧ isHealthyAt lb.servers j = true
         ∧ lookupSession (lb.get_server sid).2.sticky_sessions sid = some j)
    ∧ (healthyIndices lb.servers = [] →
       (lb.get_server sid).1 = none
       ∧ lookupSession (lb.get_server sid).2.sticky_sessions sid = none) := by
  have hred : lb.get_server sid
      = LoadLoad.assignServer
          { lb with sticky_sessions := eraseSession lb.sticky_sessions sid } sid := by
    unfold LoadLoad.get_server
    rw [hrec]
    simp [hunh]
  constructor
  · intro hne
    obtain ⟨j, hjmem, heq⟩ :=
      assignServer_of_ne_nil
        { lb with sticky_sessions := eraseSession lb.sticky_sessions sid } sid hne
    have hjh : isHealthyAt lb.servers j = true := (healthyIndices_mem.mp hjmem).2
    refine ⟨j, ?_, ?_, hjh, ?_⟩
    · rw [hred, heq]
    · intro hji
      rw [hji, hunh] at hjh
      simp at hjh
    · rw [hred, heq]
      exact lookupSession_insert _ sid j
  · intro hnil
    rw [hred, assignServer_of_nil
          { lb with sticky_sessions := eraseSession lb.sticky_sessions sid } sid hnil]
    exact ⟨rfl, lookupSession_erase lb.sticky_sessions sid⟩

/-- Fixture: session "abc" pinned to the (unhealthy) second server
while the first server is healthy. -/
def lbFix3 : LoadLoad :=
  { servers := [{ host := "h1", port := 8001 },
                { host := "h2", port := 8002, is_healthy := false }],
    current_index := 0,
    sticky_sessions := [("abc", 1)] }

theorem affinity_invalidation_witness :
    lookupSession lbFix3.sticky_sessions "abc" = some 1
    ∧ isHealthyAt lbFix3.servers 1 = false
    ∧ healthyIndices lbFix3.servers ≠ []
    ∧ ∃ j, (lbFix3.get_server "abc").1 = some j
        ∧ j ≠ 1
        ∧ isHealthyAt lbFix3.servers j = true
        ∧ lookupSession (lbFix3.get_server "abc").2.sticky_sessions "abc" = some j :=
  ⟨by decide, by decide, by decide,
   (affinity_invalidation lbFix3 "abc" 1 (by decide) (by decide)).1 (by decide)⟩

/-! ### C5: cursor drift (corrected) -/

/-- Fixture: a pool whose servers are all unhealthy. -/
def lbDown : LoadLoad :=
  { servers := [{ host := "h1", port := 8001, is_healthy := false },
                { host := "h2", port := 8002, is_healthy := false }],
    current_index := 7,
    sticky_sessions := [("abc", 0)] }

/-- Fixture request: no session cookie, a remote address, a `Host`
header carrying the balancer's own address. -/
def reqFix : Request :=
  { method := "GET",
    path_qs := "/a?b=1",
    headers := [("Host", "lb.example:8000"), ("X-Trace", "t1")],
    body := some "payload",
    cookie_session_id := none,
    remote := some "10.0.0.9" }

/-- C5 counterexample. The claim says every `_round_robin` call
increments the cursor by one "regardless of outcome — including calls
made while the healthy subset is empty". On an all-unhealthy pool the
code returns `None` *before* the increment, leaving the cursor at 7. -/
theorem cursor_drift_counterexample :
    ¬ ((lbDown.round_robin).2.current_index = lbDown.current_index + 1) := by
  decide

/-- C5 amended: the cursor increments by exactly one on every
*successful* selection (healthy subset non-empty); a failed selection
on an empty healthy subset returns `none` and leaves the entire state,
cursor included, unchanged. -/
theorem cursor_increment (lb : LoadLoad) :
    (healthyIndices lb.servers ≠ [] →
       (lb.round_robin).2.current_index = lb.current_index + 1
       ∧ (lb.round_robin).1.isSome)
    ∧ (healthyIndices lb.servers = [] → lb.round_robin = (none, lb)) := by
  constructor
  · intro h
    refine ⟨?_, round_robin_isSome h⟩
    rw [round_robin_of_ne_nil h]
  · intro h
    exact round_robin_of_nil h

theorem cursor_increment_witness :
    healthyIndices lbFix.servers ≠ []
    ∧ (lbFix.round_robin).2.current_index = lbFix.current_index + 1
    ∧ (lbFix.round_robin).1.isSome :=
  ⟨by decide,
   ((cursor_increment lbFix).1 (by decide)).1,
   ((cursor_increment lbFix).1 (by decide)).2⟩

/-! ### C4: no-backend fallback -/

theorem get_server_fst_of_nil (lb : LoadLoad) (sid : String)
    (h : healthyIndices lb.servers = []) :
    (lb.get_server sid).1 = none := by
  unfold LoadLoad.get_server
  cases hrec : lookupSession lb.sticky_sessions sid with
  | none => simp [assignServer_of_nil lb sid h]
  | some i =>
      cases hb : isHealthyAt lb.servers i with
      | true =>
          exfalso
          have hmem : i ∈ healthyIndices lb.servers :=
            healthyIndices_mem.mpr ⟨lt_length_of_isHealthyAt hb, hb⟩
          rw [h] at hmem
          cases hmem
      | false =>
          simp only [hb, Bool.false_eq_true, if_false]
          rw [assignServer_of_nil
                { lb with sticky_sessions := eraseSession lb.sticky_sessions sid } sid h]

theorem selectFor_fst_of_nil (lb : LoadLoad) (req : Request)
    (h : healthyIndices lb.servers = []) : (lb.selectFor req).1 = none := by
  unfold LoadLoad.selectFor
  cases LoadLoad.get_session_id req with
  | none => simp [round_robin_of_nil h]
  | some s =>
      by_cases hse : s = ""
      · simp [hse, round_robin_of_nil h]
      · simp [hse, get_server_fst_of_nil lb s h]

/-- C4. No-backend fallback: with every pool member unhealthy, round
robin yields nothing (state untouched), every affinity lookup yields
nothing, and the request handler answers 503 "No servers available"
without building any outbound request. -/
theorem no_backend_fallback (lb : LoadLoad)
    (hall : ∀ s ∈ lb.servers, s.is_healthy = false) :
    lb.round_robin = (none, lb)
    ∧ (∀ sid, (lb.get_server sid).1 = none)
    ∧ (∀ req callResult,
        (lb.handle_request req callResult).1
            = { status := 503, headers := [], body := "No servers available" }
        ∧ (lb.handle_request req callResult).2.2 = none) := by
  have hnil := healthyIndices_eq_nil hall
  refine ⟨round_robin_of_nil hnil,
          fun sid => get_server_fst_of_nil lb sid hnil, ?_⟩
  intro req callResult
  have hsel := selectFor_fst_of_nil lb req hnil
  simp [LoadLoad.handle_request, hsel]

theorem no_backend_fallback_witness :
    lbDown.round_robin = (none, lbDown)
    ∧ (lbDown.get_server "abc").1 = none
    ∧ (lbDown.handle_request reqFix none).1
        = { status := 503, headers := [], body := "No servers available" }
    ∧ (lbDown.handle_request reqFix none).2.2 = none :=
  ⟨(no_backend_fallback lbDown (by decide)).1,
   (no_backend_fallback lbDown (by decide)).2.1 "abc",
   ((no_backend_fallback lbDown (by decide)).2.2 reqFix none).1,
   ((no_backend_fallback lbDown (by decide)).2.2 reqFix none).2⟩

/-! ### C6: health-check postcondition (corrected) -/

/-- Modelled from the spec: "Success criterion: response received with
a success status code within the timeout" — in HTTP, a success status
code is one in the 2xx class. Stated from the spec's words, for
comparison with the code's `response.status == 200` test. -/
def specSuccessStatus (s : Nat) : Bool :=
  decide (200 ≤ s ∧ s < 300)

/-- Fixture: a single-server pool. -/
def lbOne : LoadLoad := LoadLoad.init [{ host := "h1", port := 8001 }]

/-- C6 counterexample. A 201 response is a success status code, yet
`_check_health` marks the backend *unhealthy*: the code tests
`response.status == 200`, not membership in the 2xx success class. -/
theorem health_check_counterexample :
    isHealthyAt (lbOne.check_health 0 (ProbeOutcome.response 201)).servers 0 = false
    ∧ specSuccessStatus 201 = true := by
  decide

theorem healthOf_eq_true {o : ProbeOutcome} :
    healthOf o = true ↔ o = ProbeOutcome.response 200 := by
  cases o <;> simp [healthOf]

theorem setHealth_length (servers : List Server) (i : Nat) (b : Bool) :
    (setHealth servers i b).length = servers.length := by
  unfold setHealth
  cases servers.get? i <;> simp

/-- C6 amended. A single health check sets the probed backend's flag
to true iff a response with status code exactly 200 arrived within the
timeout; every other outcome (timeout, connection error, any non-200
status) sets it to false. No exception escapes (the function is total)
and nothing else changes: cursor, affinity table, pool length, every
other pool entry, and the probed entry's host and port are all
preserved. -/
theorem health_check_postcondition (lb : LoadLoad) (i : Nat) (outcome : ProbeOutcome)
    (hi : i < lb.servers.length) :
    (isHealthyAt (lb.check_health i outcome).servers i = true
        ↔ outcome = ProbeOutcome.response 200)
    ∧ (lb.check_health i outcome).current_index = lb.current_index
    ∧ (lb.check_health i outcome).sticky_sessions = lb.sticky_sessions
    ∧ (lb.check_health i outcome).servers.length = lb.servers.length
    ∧ (∀ j, j ≠ i → (lb.check_health i outcome).servers.get? j = lb.servers.get? j)
    ∧ ((lb.check_health i outcome).servers.get? i).map Server.host
        = (lb.servers.get? i).map Server.host
    ∧ ((lb.check_health i outcome).servers.get? i).map Server.port
        = (lb.servers.get? i).map Server.port := by
  obtain ⟨s, hs⟩ : ∃ s, lb.servers.get? i = some s := by
    cases hg : lb.servers.get? i with
    | some s => exact ⟨s, rfl⟩
    | none =>
        rw [List.get?_eq_none] at hg
        omega
  have hsrv : (lb.check_health i outcome).servers
      = lb.servers.set i { s with is_healthy := healthOf outcome } := by
    show setHealth lb.servers i (healthOf outcome) = _
    unfold setHealth
    rw [hs]
  have hs' : lb.servers[i]? = some s := by simpa using hs
  refine ⟨?_, rfl, rfl, ?_, ?_, ?_, ?_⟩
  · rw [hsrv]
    unfold isHealthyAt
    rw [List.get?_set]
    simp [hs', healthOf_eq_true]
  · rw [hsrv]
    simp
  · intro j hj
    rw [hsrv, List.get?_set, if_neg (fun hij => hj hij.symm)]
  · rw [hsrv, List.get?_set, if_pos rfl, hs]
    rfl
  · rw [hsrv, List.get?_set, if_pos rfl, hs]
    rfl

theorem health_check_postcondition_witness :
    0 < lbFix.servers.length
    ∧ (isHealthyAt (lbFix.check_health 0 ProbeOutcome.failure).servers 0 = true
        ↔ ProbeOutcome.failure = ProbeOutcome.response 200)
    ∧ (lbFix.check_health 0 ProbeOutcome.failure).sticky_sessions
        = lbFix.sticky_sessions :=
  ⟨by decide,
   (health_check_postcondition lbFix 0 ProbeOutcome.failure (by decide)).1,
   (health_check_postcondition lbFix 0 ProbeOutcome.failure (by decide)).2.2.1⟩

/-! ### C7 and C8: the proxied call -/

theorem handle_request_out (lb : LoadLoad) (req : Request)
    (callResult : Option BackendResponse) (out : OutboundRequest)
    (h : (lb.handle_request req callResult).2.2 = some out) :
    ∃ sv, out = buildOutbound sv req := by
  cases hsel : (lb.selectFor req).1 with
  | none =>
      simp [LoadLoad.handle_request, hsel] at h
  | some i =>
      cases callResult with
      | some resp =>
          simp [LoadLoad.handle_request, hsel] at h
          exact ⟨_, h.symm⟩
      | none =>
          simp [LoadLoad.handle_request, hsel] at h
          exact ⟨_, h.symm⟩

theorem mem_stripHostHeaders {headers : List (String × String)}
    {p : String × String} :
    p ∈ stripHostHeaders headers ↔ p ∈ headers ∧ strLower p.1 ≠ "host" := by
  simp [stripHostHeaders, List.mem_filter, bne_iff_ne]

/-- C7. Forwarding shape and Host stripping: whenever `handle_request`
issues an outbound request, it carries the inbound method and body,
its headers are exactly the inbound headers whose name does not
lowercase to "host" (so no `Host` header — in particular not the
balancer's own — survives), and its URL is some backend's base URL
concatenated with the inbound path-and-query. -/
theorem host_stripping (lb : LoadLoad) (req : Request)
    (callResult : Option BackendResponse) (out : OutboundRequest)
    (h : (lb.handle_request req callResult).2.2 = some out) :
    out.method = req.method
    ∧ out.body = req.body
    ∧ out.headers = stripHostHeaders req.headers
    ∧ (∀ p, p ∈ out.headers ↔ p ∈ req.headers ∧ strLower p.1 ≠ "host")
    ∧ (∀ v, ("Host", v) ∉ out.headers)
    ∧ (∃ sv, out.url = sv.url ++ req.path_qs ∧ out = buildOutbound sv req) := by
  obtain ⟨sv, rfl⟩ := handle_request_out lb req callResult out h
  refine ⟨rfl, rfl, rfl, fun p => mem_stripHostHeaders, ?_, ⟨sv, rfl, rfl⟩⟩
  intro v hmem
  exact (mem_stripHostHeaders.mp hmem).2 (show strLower "Host" = "host" by decide)

/-- Fixture backend response. -/
def respFix : BackendResponse :=
  { status := 201, headers := [("Content-Type", "text/json")], body := "ok" }

/-- The outbound request `lbFix` builds for `reqFix` (server 0 is
selected). -/
def outFix : OutboundRequest :=
  buildOutbound { host := "h1", port := 8001 } reqFix

theorem host_stripping_witness :
    (lbFix.handle_request reqFix (some respFix)).2.2 = some outFix
    ∧ outFix.method = reqFix.method
    ∧ ("Host", "lb.example:8000") ∉ outFix.headers :=
  ⟨by decide,
   (host_stripping lbFix reqFix (some respFix) outFix (by decide)).1,
   (host_stripping lbFix reqFix (some respFix) outFix (by decide)).2.2.2.2.1
     "lb.example:8000"⟩

/-- C8. Backend-failure containment: when a backend was selected (an
outbound request exists), a failed proxied call yields exactly the
fixed 502 "Backend error" response — the exception never escapes —
and a successful call's status, headers and body are relayed
verbatim. -/
theorem backend_failure_containment (lb : LoadLoad) (req : Request)
    (callResult : Option BackendResponse) (out : OutboundRequest)
    (h : (lb.handle_request req callResult).2.2 = some out) :
    (callResult = none →
        (lb.handle_request req callResult).1
          = { status := 502, headers := [], body := "Backend error" })
    ∧ (∀ resp, callResult = some resp →
        (lb.handle_request req callResult).1
          = { status := resp.status, headers := resp.headers, body := resp.body }) := by
  cases hsel : (lb.selectFor req).1 with
  | none =>
      simp [LoadLoad.handle_request, hsel] at h
  | some i =>
      constructor
      · rintro rfl
        simp [LoadLoad.handle_request, hsel]
      · rintro resp rfl
        simp [LoadLoad.handle_request, hsel]

theorem backend_failure_containment_witness :
    (lbFix3.handle_request reqFix none).2.2
        = some (buildOutbound { host := "h1", port := 8001 } reqFix)
    ∧ (lbFix3.handle_request reqFix none).1
        = { status := 502, headers := [], body := "Backend error" } :=
  ⟨by decide,
   (backend_failure_containment lbFix3 reqFix none
      (buildOutbound { host := "h1", port := 8001 } reqFix) (by decide)).1 rfl⟩

/-! ### C9: anonymous requests bypass the affinity table -/

theorem handle_request_state (lb : LoadLoad) (req : Request)
    (callResult : Option BackendResponse) :
    (lb.handle_request req callResult).2.1 = (lb.selectFor req).2 := by
  unfold LoadLoad.handle_request
  cases hsel : (lb.selectFor req).1 with
  | none => simp [hsel]
  | some i => cases callResult <;> simp [hsel]

/-- C9. Anonymous-request edge case: when the derived session
identifier is falsy (`None` or the empty string), the handler selects
by direct round robin; the affinity table is neither written (it is
unchanged in the post-state) nor read (the response is the same for
every possible table contents). -/
theorem anonymous_request (lb : LoadLoad) (req : Request)
    (callResult : Option BackendResponse)
    (h : LoadLoad.get_session_id req = none ∨ LoadLoad.get_session_id req = some "") :
    lb.selectFor req = lb.round_robin
    ∧ (lb.handle_request req callResult).2.1.sticky_sessions = lb.sticky_sessions
    ∧ (∀ t, ((LoadLoad.mk lb.servers lb.current_index t).handle_request req callResult).1
            = (lb.handle_request req callResult).1) := by
  have hselT : ∀ lb' : LoadLoad, lb'.selectFor req = lb'.round_robin := by
    intro lb'
    unfold LoadLoad.selectFor
    rcases h with h | h <;> rw [h] <;> simp
  have hrr1 : ∀ t, (LoadLoad.mk lb.servers lb.current_index t).round_robin.1
      = lb.round_robin.1 := by
    intro t
    unfold LoadLoad.round_robin
    by_cases hn : (healthyIndices lb.servers).length = 0 <;> simp [hn]
  refine ⟨hselT lb, ?_, ?_⟩
  · rw [handle_request_state, hselT lb, round_robin_sticky]
  · intro t
    unfold LoadLoad.handle_request
    rw [hselT (LoadLoad.mk lb.servers lb.current_index t), hselT lb]
    cases hfst : lb.round_robin.1 with
    | none =>
        have hT := hrr1 t
        rw [hfst] at hT
        simp [hT, hfst]
    | some i =>
        have hT := hrr1 t
        rw [hfst] at hT
        cases callResult with
        | none => simp [hT, hfst]
        | some resp => simp [hT, hfst]

/-- Fixture: anonymous request — empty `session_id` cookie and no
usable remote address. -/
def reqAnon : Request :=
  { method := "GET", path_qs := "/", headers := [], body := none,
    cookie_session_id := some "", remote := none }

theorem anonymous_request_witness :
    (LoadLoad.get_session_id reqAnon = none ∨ LoadLoad.get_session_id reqAnon = some "")
    ∧ lbFix.selectFor reqAnon = lbFix.round_robin
    ∧ (lbFix.handle_request reqAnon none).2.1.sticky_sessions = lbFix.sticky_sessions :=
  ⟨Or.inl (by decide),
   (anonymous_request lbFix reqAnon none (Or.inl (by decide))).1,
   (anonymous_request lbFix reqAnon none (Or.inl (by decide))).2.1⟩

/-! ### C1: round-robin fairness -/

theorem rrRun_spec (n : Nat) :
    ∀ lb : LoadLoad, healthyIndices lb.servers ≠ [] →
      (lb.rrRun n).1
        = (List.range n).map
            (fun k => (healthyIndices lb.servers).get?
              ((lb.current_index + k) % (healthyIndices lb.servers).length))
      ∧ (lb.rrRun n).2 = { lb with current_index := lb.current_index + n } := by
  induction n with
  | zero =>
      intro lb _
      refine ⟨rfl, ?_⟩
      show lb = _
      cases lb
      rfl
  | succ n ih =>
      intro lb h
      have hrr := round_robin_of_ne_nil h
      obtain ⟨ihout, ihstate⟩ :=
        ih { lb with current_index := lb.current_index + 1 } h
      constructor
      · show (lb.round_robin.1 :: (lb.round_robin.2.rrRun n).1) = _
        rw [hrr]
        show (healthyIndices lb.servers).get?
            (lb.current_index % (healthyIndices lb.servers).length)
          :: ({ lb with current_index := lb.current_index + 1 }.rrRun n).1 = _
        rw [ihout, List.range_succ_eq_map, List.map_cons, List.map_map]
        congr 1
        apply List.map_congr_left
        intro k hk
        have hk2 : ({ lb with current_index := lb.current_index + 1 } : LoadLoad).current_index + k
            = lb.current_index + (k + 1) := by
          show lb.current_index + 1 + k = _
          omega
        rw [hk2]
        rfl
      · show (lb.round_robin.2.rrRun n).2 = _
        rw [hrr]
        show ({ lb with current_index := lb.current_index + 1 }.rrRun n).2 = _
        rw [ihstate]
        have harith : lb.current_index + 1 + n = lb.current_index + (n + 1) := by
          omega
        simp [harith]

theorem rrRun_rotate (lb : LoadLoad) (h : healthyIndices lb.servers ≠ []) :
    (lb.rrRun (healthyIndices lb.servers).length).1
      = ((healthyIndices lb.servers).rotate lb.current_index).map some := by
  obtain ⟨hout, _⟩ := rrRun_spec (healthyIndices lb.servers).length lb h
  rw [hout]
  have hN : 0 < (healthyIndices lb.servers).length := List.length_pos.mpr h
  apply List.ext
  intro n
  by_cases hn : n < (healthyIndices lb.servers).length
  · have hlt : (n + lb.current_index) % (healthyIndices lb.servers).length
        < (healthyIndices lb.servers).length := Nat.mod_lt _ hN
    rw [List.get?_map, List.get?_map, List.get?_range hn, List.get?_rotate hn]
    have hv : (healthyIndices lb.servers)[(n + lb.current_index) %
        (healthyIndices lb.servers).length]?
        = some ((healthyIndices lb.servers).get
            ⟨(n + lb.current_index) % (healthyIndices lb.servers).length, hlt⟩) := by
      simpa using List.get?_eq_get hlt
    simp [Nat.add_comm, hv]
  · have h1 : ((List.range (healthyIndices lb.servers).length).map
        (fun k => (healthyIndices lb.servers).get?
          ((lb.current_index + k) % (healthyIndices lb.servers).length))).get? n
        = none := by
      rw [List.get?_eq_none]
      simpa using Nat.le_of_not_lt hn
    have h2 : (((healthyIndices lb.servers).rotate lb.current_index).map some).get? n
        = none := by
      rw [List.get?_eq_none]
      simpa using Nat.le_of_not_lt hn
    rw [h1, h2]

theorem count_map_some (l : List Nat) (i : Nat) :
    (l.map some).count (some i) = l.count i := by
  induction l with
  | nil => rfl
  | cons a l ih => simp [List.count_cons, ih]

theorem count_one_of_nodup {l : List Nat} {i : Nat}
    (hnd : l.Nodup) (hm : i ∈ l) : l.count i = 1 := by
  induction l with
  | nil => cases hm
  | cons a l ih =>
      rw [List.count_cons]
      rcases List.mem_cons.mp hm with heq | hmem
      · subst heq
        rw [List.count_eq_zero.mpr (List.nodup_cons.mp hnd).1]
        simp
      · have hne : i ≠ a := by
          rintro rfl
          exact (List.nodup_cons.mp hnd).1 hmem
        rw [ih (List.nodup_cons.mp hnd).2 hmem]
        simp [hne, Ne.symm hne]

/-- C1. Round-robin fairness: with the healthy subset fixed and
non-empty (say of size N), N consecutive `_round_robin` calls return
exactly the healthy backends, each once, in pool order starting from
`healthy[cursor % N]` — the output sequence is the rotation of the
healthy list by the starting cursor — and the only state change is
the cursor advancing by N. -/
theorem round_robin_fairness (lb : LoadLoad)
    (h : healthyIndices lb.servers ≠ []) :
    (lb.rrRun (healthyIndices lb.servers).length).1
      = ((healthyIndices lb.servers).rotate lb.current_index).map some
    ∧ (∀ i ∈ healthyIndices lb.servers,
        ((lb.rrRun (healthyIndices lb.servers).length).1).count (some i) = 1)
    ∧ (lb.rrRun (healthyIndices lb.servers).length).2
        = { lb with
              current_index := lb.current_index + (healthyIndices lb.servers).length } := by
  refine ⟨rrRun_rotate lb h, ?_, (rrRun_spec _ lb h).2⟩
  intro i hi
  rw [rrRun_rotate lb h, count_map_some]
  exact count_one_of_nodup
    (List.nodup_rotate.mpr (List.Nodup.filter _ (List.nodup_range _)))
    (List.mem_rotate.mpr hi)

/-- Fixture: three healthy servers, cursor at 4 (so the rotation
starts at pool position 4 % 3 = 1). -/
def lbPool3 : LoadLoad :=
  { servers := [{ host := "b1", port := 8001 },
                { host := "b2", port := 8002 },
                { host := "b3", port := 8003 }],
    current_index := 4,
    sticky_sessions := [] }

theorem round_robin_fairness_witness :
    healthyIndices lbPool3.servers ≠ []
    ∧ (lbPool3.rrRun (healthyIndices lbPool3.servers).length).1
        = ((healthyIndices lbPool3.servers).rotate lbPool3.current_index).map some
    ∧ ((lbPool3.rrRun (healthyIndices lbPool3.servers).length).1).count (some 2) = 1 :=
  ⟨by decide,
   (round_robin_fairness lbPool3 (by decide)).1,
   (round_robin_fairness lbPool3 (by decide)).2.1 2 (by decide)⟩

/-! ### C10: affinity-table membership invariant -/

/-- The membership invariant: every backend reference stored in the
sticky-session table points inside the pool (stored references are
pool indices, so membership in the pool is `index < pool length`). -/
def StickyWF (lb : LoadLoad) : Bool :=
  lb.sticky_sessions.all (fun p => decide (p.2 < lb.servers.length))

theorem stickyWF_iff {lb : LoadLoad} :
    StickyWF lb = true ↔ ∀ p ∈ lb.sticky_sessions, p.2 < lb.servers.length := by
  simp [StickyWF, List.all_eq_true]

theorem stickyWF_round_robin {lb : LoadLoad} (h : StickyWF lb = true) :
    StickyWF lb.round_robin.2 = true := by
  rw [stickyWF_iff] at h ⊢
  rw [round_robin_sticky, round_robin_servers]
  exact h

theorem stickyWF_assignServer {lb : LoadLoad} (sid : String)
    (h : StickyWF lb = true) : StickyWF (lb.assignServer sid).2 = true := by
  by_cases hnil : healthyIndices lb.servers = []
  · rw [assignServer_of_nil lb sid hnil]
    exact h
  · obtain ⟨j, hjmem, heq⟩ := assignServer_of_ne_nil lb sid hnil
    rw [heq]
    rw [stickyWF_iff] at h ⊢
    intro p hp
    have hp' : p = (sid, j) ∨ p ∈ eraseSession lb.sticky_sessions sid := by
      simpa [insertSession] using hp
    rcases hp' with hpe | hpm
    · rw [hpe]
      exact (healthyIndices_mem.mp hjmem).1
    · unfold eraseSession at hpm
      exact h p (List.mem_of_mem_filter hpm)

theorem stickyWF_get_server {lb : LoadLoad} (sid : String)
    (h : StickyWF lb = true) : StickyWF (lb.get_server sid).2 = true := by
  unfold LoadLoad.get_server
  cases hrec : lookupSession lb.sticky_sessions sid with
  | none => exact stickyWF_assignServer sid h
  | some i =>
      cases hb : isHealthyAt lb.servers i with
      | true => simpa [hb] using h
      | false =>
          simp only [hb, Bool.false_eq_true, if_false]
          apply stickyWF_assignServer sid
          rw [stickyWF_iff] at h ⊢
          intro p hp
          unfold eraseSession at hp
          exact h p (List.mem_of_mem_filter hp)

theorem stickyWF_check_health {lb : LoadLoad} (i : Nat) (outcome : ProbeOutcome)
    (h : StickyWF lb = true) : StickyWF (lb.check_health i outcome) = true := by
  rw [stickyWF_iff] at h ⊢
  intro p hp
  show p.2 < (setHealth lb.servers i (healthOf outcome)).length
  rw [setHealth_length]
  exact h p hp

theorem stickyWF_selectFor {lb : LoadLoad} (req : Request)
    (h : StickyWF lb = true) : StickyWF (lb.selectFor req).2 = true := by
  unfold LoadLoad.selectFor
  cases LoadLoad.get_session_id req with
  | none => exact stickyWF_round_robin h
  | some s =>
      by_cases hse : s = ""
      · simp only [hse, if_pos rfl]
        exact stickyWF_round_robin h
      · simp only [if_neg hse]
        exact stickyWF_get_server s h

/-- C10. Affinity-table membership invariant: the initial state's
empty table satisfies it, and each of the four operations — round
robin, affinity lookup, health check, request handling — preserves it:
every stored reference keeps pointing at a pool entry. -/
theorem sticky_membership_invariant :
    (∀ servers, StickyWF (LoadLoad.init servers) = true)
    ∧ (∀ lb : LoadLoad, StickyWF lb = true →
        StickyWF lb.round_robin.2 = true
        ∧ (∀ sid, StickyWF (lb.get_server sid).2 = true)
        ∧ (∀ i outcome, StickyWF (lb.check_health i outcome) = true)
        ∧ (∀ req callResult, StickyWF (lb.handle_request req callResult).2.1 = true)) := by
  constructor
  · intro servers
    rfl
  · intro lb h
    refine ⟨stickyWF_round_robin h, fun sid => stickyWF_get_server sid h,
            fun i outcome => stickyWF_check_health i outcome h, ?_⟩
    intro req callResult
    rw [handle_request_state]
    exact stickyWF_selectFor req h

theorem sticky_membership_invariant_witness :
    StickyWF lbFix3 = true
    ∧ StickyWF (lbFix3.get_server "abc").2 = true :=
  ⟨by decide, (sticky_membership_invariant.2 lbFix3 (by decide)).2.1 "abc"⟩
